import Mathlib

/-!
Shallow embedding of the `otto` webhook bot (module registry, event
dispatcher, signature verifier, slash-command detector, config defaults,
HTTP webhook handler, lifecycle shutdown), with theorems settling the
spec claims about those components.

Go byte strings are `List Nat` (each element a byte value), Go strings
that are scanned character-wise are `List Char`, Go maps are association
lists, and the nondeterministic completion order of goroutines is an
explicit permutation parameter.
-/

namespace Otto

variable {M E R ε : Type}

/-! ### Go string helpers (strings.TrimSpace, strings.Split, HasPrefix) -/

/-- Unicode White_Space property, as used by Go's `unicode.IsSpace`
(which `strings.TrimSpace` is defined from). -/
def goIsSpace (c : Char) : Bool :=
  c = ' ' ∨ c = '\t' ∨ c = '\n' ∨ c.toNat = 0x0B ∨ c.toNat = 0x0C ∨
  c = '\r' ∨ c.toNat = 0x85 ∨ c.toNat = 0xA0 ∨ c.toNat = 0x1680 ∨
  (0x2000 ≤ c.toNat ∧ c.toNat ≤ 0x200A) ∨ c.toNat = 0x2028 ∨
  c.toNat = 0x2029 ∨ c.toNat = 0x202F ∨ c.toNat = 0x205F ∨ c.toNat = 0x3000

/-- Go `strings.TrimSpace`: drop White_Space characters from both ends. -/
def trimSpace (s : List Char) : List Char :=
  ((s.dropWhile goIsSpace).reverse.dropWhile goIsSpace).reverse

/-- Go `strings.HasPrefix`. -/
def strStartsWith (s pre : List Char) : Bool :=
  pre.isPrefixOf s

/-- Go `strings.Split(body, "\n")` (the separator here is one character). -/
def splitLines (s : List Char) : List (List Char) :=
  match s with
  | [] => [[]]
  | c :: rest =>
    if c = '\n' then [] :: splitLines rest
    else match splitLines rest with
      | [] => [[c]]
      | l :: ls => (c :: l) :: ls

/-! ### Command parser (`IsSlashCommand`, commands.go) -/

/-- Function `IsSlashCommand` from commands.go: scan the body line by line
(split on newline, per-line `TrimSpace`); a line that starts with `/`,
has length greater than one, and does not start with `//` makes the
result true. -/
def IsSlashCommand (body : List Char) : Bool :=
  (splitLines body).any fun line =>
    let line := trimSpace line
    strStartsWith line ['/'] && decide (line.length > 1) &&
      !strStartsWith line ['/', '/']

/-! ### Config (`ValidateConfig`, `ApplyConfigDefaults`, config.go) -/

/-- Structure `AppConfig` from config.go.  The `log` block is a YAML mapping that is
`nil` when absent, so it is an `Option`; its values are only ever the
strings written by `ApplyConfigDefaults`, so they are modelled as
strings.  The `modules` block is opaque to the code under study. -/
structure AppConfig where
  webHookSecret : String
  port : String
  dbPath : String
  gitHubToken : String
  log : Option (List (String × String))
  modules : Option (List (String × String))
deriving Repr, DecidableEq

/-- Function `ValidateConfig`: the only required field is the webhook secret;
`some msg` models a returned `error`. -/
def ValidateConfig (config : AppConfig) : Option String :=
  if config.webHookSecret = "" then some "webhook secret must be set"
  else none

/-- Function `ApplyConfigDefaults`: fill empty port, empty db path, and a nil log
block with their defaults. -/
def ApplyConfigDefaults (config : AppConfig) : AppConfig :=
  let config := if config.port = "" then { config with port := "8080" } else config
  let config := if config.dbPath = "" then { config with dbPath := "data.db" } else config
  let config :=
    if config.log = none then
      { config with log := some [("level", "info"), ("format", "json")] }
    else config
  config

/-! ### Module registry (`RegisterModule`, `GetModules`, modules.go)

A module value is kept abstract (type parameter `M`) together with the
name the registry keys it by; the Go map is an association list with
unique keys, which `RegisterModule` maintains by inserting only when the
name is absent. -/

/-- The global `modules` map: name → module. -/
abbrev Registry (M : Type) : Type := List (String × M)

/-- Go map lookup. -/
def regLookup {M : Type} (r : Registry M) (name : String) : Option M :=
  match r with
  | [] => none
  | (n, m) :: rest => if n = name then some m else regLookup rest name

/-- Function `RegisterModule`: if a module with the same name already exists, log
an error and return (registry unchanged); otherwise store the module. -/
def RegisterModule {M : Type} (r : Registry M) (name : String) (m : M) :
    Registry M :=
  if (regLookup r name).isSome then r
  else r ++ [(name, m)]

/-! ### SHA-256 and HMAC (crypto/sha256, crypto/hmac)

Bytes are `Nat` values below 256, 32-bit words are `Nat` values reduced
`% 2^32` at every arithmetic step. -/

/-- 2^32. -/
def w32 : Nat := 4294967296

/-- 32-bit rotate right. -/
def rotr (n x : Nat) : Nat := ((x >>> n) ||| (x <<< (32 - n))) % w32

def bigSigma0 (x : Nat) : Nat := (rotr 2 x) ^^^ (rotr 13 x) ^^^ (rotr 22 x)

def bigSigma1 (x : Nat) : Nat := (rotr 6 x) ^^^ (rotr 11 x) ^^^ (rotr 25 x)

def smallSigma0 (x : Nat) : Nat := (rotr 7 x) ^^^ (rotr 18 x) ^^^ (x >>> 3)

def smallSigma1 (x : Nat) : Nat := (rotr 17 x) ^^^ (rotr 19 x) ^^^ (x >>> 10)

def chFn (x y z : Nat) : Nat := (x &&& y) ^^^ ((x ^^^ 4294967295) &&& z)

def majFn (x y z : Nat) : Nat := (x &&& y) ^^^ (x &&& z) ^^^ (y &&& z)

/-- The 64 SHA-256 round constants (decimal). -/
def shaK : List Nat :=
  [1116352408, 1899447441, 3049323471, 3921009573, 961987163,
   1508970993, 2453635748, 2870763221, 3624381080, 310598401,
   607225278, 1426881987, 1925078388, 2162078206, 2614888103,
   3248222580, 3835390401, 4022224774, 264347078, 604807628,
   770255983, 1249150122, 1555081692, 1996064986, 2554220882,
   2821834349, 2952996808, 3210313671, 3336571891, 3584528711,
   113926993, 338241895, 666307205, 773529912, 1294757372,
   1396182291, 1695183700, 1986661051, 2177026350, 2456956037,
   2730485921, 2820302411, 3259730800, 3345764771, 3516065817,
   3600352804, 4094571909, 275423344, 430227734, 506948616,
   659060556, 883997877, 958139571, 1322822218, 1537002063,
   1747873779, 1955562222, 2024104815, 2227730452, 2361852424,
   2428436474, 2756734187, 3204031479, 3329325298]

/-- The SHA-256 initial hash values (decimal). -/
def shaH0 : List Nat :=
  [1779033703, 3144134277, 1013904242, 2773480762,
   1359893119, 2600822924, 528734635, 1541459225]

/-- The `count` big-endian bytes of `v`, most significant first. -/
def natToBytesBE : Nat → Nat → List Nat
  | 0, _ => []
  | n + 1, v => natToBytesBE n (v / 256) ++ [v % 256]

/-- SHA-256 padding: append `0x80`, zeros to 56 mod 64, then the bit
length as 8 big-endian bytes. -/
def padMessage (msg : List Nat) : List Nat :=
  msg ++ [0x80] ++ List.replicate ((119 - msg.length % 64) % 64) 0 ++
    natToBytesBE 8 (msg.length * 8)

/-- Split into 64-byte blocks (structural recursion on a fuel bound so
the kernel can evaluate it; `l.length` steps always suffice). -/
def chunksAux : Nat → List Nat → List (List Nat)
  | 0, _ => []
  | _, [] => []
  | fuel + 1, l => l.take 64 :: chunksAux fuel (l.drop 64)

/-- Split into 64-byte blocks. -/
def chunks64 (l : List Nat) : List (List Nat) :=
  chunksAux l.length l

/-- Big-endian 4-byte groups to 32-bit words. -/
def bytesToWords : List Nat → List Nat
  | a :: b :: c :: d :: rest =>
      (a * 16777216 + b * 65536 + c * 256 + d) :: bytesToWords rest
  | _ => []

/-- One extension step of the SHA-256 message schedule. -/
def schedStep (w : List Nat) : List Nat :=
  let l := w.length
  w ++ [(smallSigma1 (w.getD (l - 2) 0) + w.getD (l - 7) 0 +
         smallSigma0 (w.getD (l - 15) 0) + w.getD (l - 16) 0) % w32]

/-- Extend the message schedule by `n` words. -/
def buildSchedule (w : List Nat) : Nat → List Nat
  | 0 => w
  | n + 1 => buildSchedule (schedStep w) n

/-- The eight SHA-256 working variables. -/
structure ShaState where
  a : Nat
  b : Nat
  c : Nat
  d : Nat
  e : Nat
  f : Nat
  g : Nat
  hh : Nat

/-- One compression round, fed a (round constant, schedule word) pair. -/
def compressRound (st : ShaState) (kw : Nat × Nat) : ShaState :=
  let t1 := (st.hh + bigSigma1 st.e + chFn st.e st.f st.g + kw.1 + kw.2) % w32
  let t2 := (bigSigma0 st.a + majFn st.a st.b st.c) % w32
  { a := (t1 + t2) % w32, b := st.a, c := st.b, d := st.c,
    e := (st.d + t1) % w32, f := st.e, g := st.f, hh := st.g }

/-- Compress one 64-byte block into the running hash (8 words). -/
def processBlock (hs : List Nat) (block : List Nat) : List Nat :=
  let w := buildSchedule (bytesToWords block) 48
  let st0 : ShaState :=
    ⟨hs.getD 0 0, hs.getD 1 0, hs.getD 2 0, hs.getD 3 0,
     hs.getD 4 0, hs.getD 5 0, hs.getD 6 0, hs.getD 7 0⟩
  let st := (shaK.zip w).foldl compressRound st0
  [(hs.getD 0 0 + st.a) % w32, (hs.getD 1 0 + st.b) % w32,
   (hs.getD 2 0 + st.c) % w32, (hs.getD 3 0 + st.d) % w32,
   (hs.getD 4 0 + st.e) % w32, (hs.getD 5 0 + st.f) % w32,
   (hs.getD 6 0 + st.g) % w32, (hs.getD 7 0 + st.hh) % w32]

/-- SHA-256 of a byte string, as 32 bytes. -/
def sha256 (msg : List Nat) : List Nat :=
  (((chunks64 (padMessage msg)).foldl processBlock shaH0).map
    (natToBytesBE 4)).flatten

/-- HMAC-SHA256 (block size 64): hash an over-long key, zero-pad, then
the nested opad/ipad hashes. -/
def hmacSha256 (key msg : List Nat) : List Nat :=
  let key := if key.length > 64 then sha256 key else key
  let key := key ++ List.replicate (64 - key.length) 0
  sha256 ((key.map (· ^^^ 0x5c)) ++
    sha256 ((key.map (· ^^^ 0x36)) ++ msg))

/-! ### Hex decoding (encoding/hex) and constant-time compare
(crypto/subtle) -/

/-- Go `encoding/hex`'s digit table: `0-9`, `a-f`, `A-F`. -/
def hexDigitVal (c : Char) : Option Nat :=
  if '0' ≤ c ∧ c ≤ '9' then some (c.toNat - 48)
  else if 'a' ≤ c ∧ c ≤ 'f' then some (c.toNat - 87)
  else if 'A' ≤ c ∧ c ≤ 'F' then some (c.toNat - 55)
  else none

/-- Go `hex.DecodeString`: fails on an odd length or a non-hex digit. -/
def hexDecode : List Char → Option (List Nat)
  | [] => some []
  | [_] => none
  | c1 :: c2 :: rest => do
      let hi ← hexDigitVal c1
      let lo ← hexDigitVal c2
      let tail ← hexDecode rest
      pure ((hi * 16 + lo) :: tail)

/-- Go `subtle.ConstantTimeCompare`: 0 on a length mismatch, else 1 exactly
when the OR of the byte-wise XORs is zero. -/
def constantTimeCompare (x y : List Nat) : Nat :=
  if x.length ≠ y.length then 0
  else if (List.zipWith Nat.xor x y).foldl Nat.lor 0 = 0 then 1 else 0

/-! ### Signature verifier (`verifySignature`, server.go) -/

/-- Go `strings.TrimPrefix`. -/
def trimPfx (s pre : List Char) : List Char :=
  if strStartsWith s pre then s.drop pre.length else s

/-- The `"sha256="` scheme tag. -/
def sha256Tag : List Char := ['s', 'h', 'a', '2', '5', '6', '=']

/-- Method `verifySignature` from server.go: require the `sha256=` tag, strip
it, HMAC the payload under the server's webhook secret, hex-decode the
remainder, and compare in constant time. -/
def verifySignature (webhookSecret payload : List Nat) (sig : List Char) :
    Bool :=
  if !strStartsWith sig sha256Tag then false
  else
    let sig := trimPfx sig sha256Tag
    let expectedMAC := hmacSha256 webhookSecret payload
    match hexDecode sig with
    | none => false
    | some receivedMAC => constantTimeCompare receivedMAC expectedMAC = 1

/-! ### Event dispatcher (`DispatchEvent`, app.go)

A module's `HandleEvent` either returns nil, returns an error, or
panics; `DispatchEvent` spawns one goroutine per module of the registry
snapshot, and the goroutines complete in an arbitrary order, modelled by
running them sequentially along an arbitrary permutation of the
snapshot (handlers are atomic in this model, so any interleaving is
some permutation). -/

/-- Outcome of one `HandleEvent` call. -/
inductive HRes (ε : Type) where
  | ok : HRes ε
  | err : ε → HRes ε
  | panicked : HRes ε
deriving DecidableEq, Repr

/-- A module as the dispatcher sees it: its registry name and its
`HandleEvent` body. -/
structure GMod (E R ε : Type) where
  name : String
  handleEvent : String → E → R → HRes ε

/-- One `HandleEvent` invocation with the arguments it received. -/
structure Call (E R : Type) where
  module : String
  eventType : String
  event : E
  raw : R
deriving DecidableEq, Repr

/-- One `Logger.Error("Event handling error", ...)` line. -/
structure LogEntry (ε : Type) where
  module : String
  eventType : String
  errv : ε
deriving DecidableEq, Repr

/-- What the goroutine spawned for one module does after `HandleEvent`
returns: nothing on nil, a log line on an error; a panic escapes the
goroutine (there is no `recover` in its body) and kills the process. -/
inductive TaskOutcome (ε : Type) where
  | done : Option (LogEntry ε) → TaskOutcome ε
  | crashProcess : TaskOutcome ε

/-- The body of the goroutine `DispatchEvent` spawns for one module. -/
def goroutineBody (m : GMod E R ε) (eventType : String) (ev : E)
    (raw : R) : TaskOutcome ε :=
  match m.handleEvent eventType ev raw with
  | .ok => .done none
  | .err e => .done (some ⟨m.name, eventType, e⟩)
  | .panicked => .crashProcess

/-- Trace of one complete execution of the spawned goroutines. -/
structure DispatchTrace (E R ε : Type) where
  calls : List (Call E R)
  logged : List (LogEntry ε)
  crashed : Bool
deriving DecidableEq, Repr

/-- Run the spawned goroutines in the given completion order.  An
unrecovered panic crashes the process: goroutines not yet run never
run. -/
def dispatchRun (order : List (GMod E R ε)) (eventType : String)
    (ev : E) (raw : R) : DispatchTrace E R ε :=
  match order with
  | [] => ⟨[], [], false⟩
  | m :: rest =>
    match goroutineBody m eventType ev raw with
    | .done none =>
      let t := dispatchRun rest eventType ev raw
      ⟨⟨m.name, eventType, ev, raw⟩ :: t.calls, t.logged, t.crashed⟩
    | .done (some entry) =>
      let t := dispatchRun rest eventType ev raw
      ⟨⟨m.name, eventType, ev, raw⟩ :: t.calls, entry :: t.logged, t.crashed⟩
    | .crashProcess => ⟨[⟨m.name, eventType, ev, raw⟩], [], true⟩

/-! ### Lifecycle shutdown (`Shutdown`, `shutdownModules`, app.go) -/

/-- A module as the lifecycle code sees it: `shutdownFn = some r` when
the module implements `ModuleShutdowner` and its `Shutdown(ctx)` call
returns `r` (`some e` = an error). -/
structure LMod (ε : Type) where
  name : String
  shutdownFn : Option (Option ε)
deriving DecidableEq, Repr

/-- Trace of `shutdownModules`: which shutdowners ran (all of them —
`wg.Wait` precedes the return), the per-module error log lines, and the
value handed back (the first error received on the channel, i.e. the
first in completion order). -/
structure ModShutdownTrace (ε : Type) where
  invoked : List String
  logged : List (String × ε)
  firstErr : Option ε
deriving DecidableEq, Repr

/-- Method `shutdownModules` from app.go, executed along a completion order
`order` (a permutation of the registry snapshot). -/
def shutdownModules (order : List (LMod ε)) : ModShutdownTrace ε :=
  let ran := order.filterMap fun m => m.shutdownFn.map fun r => (m.name, r)
  { invoked := ran.map (·.1)
    logged := ran.filterMap fun p => p.2.map fun e => (p.1, e)
    firstErr := (ran.filterMap (·.2)).head? }

/-- Trace of `App.Shutdown`: every teardown step runs, step failures are
logged, and `returned` is the value returned to the caller. -/
structure AppShutdownOut (ε : Type) where
  serverStopped : Bool
  moduleTrace : ModShutdownTrace ε
  telemetryFlushed : Bool
  dbClosed : Bool
  stepErrsLogged : List String
  returned : Option ε
deriving DecidableEq, Repr

/-- Method `App.Shutdown` from app.go: stop the server, shut down the modules,
shut down telemetry, close the database (when one is open); each step's
error is only logged, and the function ends with `return nil`. -/
def appShutdown (serverRes : Option ε) (order : List (LMod ε))
    (telemetryRes : Option ε) (dbPresent : Bool) (dbRes : Option ε) :
    AppShutdownOut ε :=
  let mt := shutdownModules order
  { serverStopped := true
    moduleTrace := mt
    telemetryFlushed := true
    dbClosed := dbPresent
    stepErrsLogged :=
      (if serverRes.isSome then ["Error during server shutdown"] else []) ++
      (if mt.firstErr.isSome then ["Error during module shutdown"] else []) ++
      (if telemetryRes.isSome then ["Error during telemetry shutdown"] else []) ++
      (if dbPresent ∧ dbRes.isSome then ["Error closing database"] else [])
    returned := none }

/-! ### A heap of Go maps (`GetModules`'s copy, modules.go)

`GetModules` copies the registry map into a freshly made map.  To state
that the copy is independent of the registry, maps live in a small heap
of references: mutating through one reference must not change the map
behind another. -/

/-- Go map assignment `r[name] = m`: overwrite an existing key, append a
new one. -/
def mapInsert (r : Registry M) (name : String) (m : M) : Registry M :=
  if (regLookup r name).isSome then
    r.map fun p => if p.1 = name then (name, m) else p
  else r ++ [(name, m)]

/-- Go `delete(r, name)`. -/
def mapErase (r : Registry M) (name : String) : Registry M :=
  r.filter fun p => p.1 != name

/-- A bump-allocating heap of name→module maps. -/
structure MapHeap (M : Type) where
  next : Nat
  store : List (Nat × Registry M)

/-- Read the map behind a reference. -/
def refGet (h : MapHeap M) (r : Nat) : Registry M :=
  match h.store.find? fun p => p.1 == r with
  | some p => p.2
  | none => []

/-- Overwrite the map behind a reference. -/
def refSet (h : MapHeap M) (r : Nat) (v : Registry M) : MapHeap M :=
  { h with store := h.store.map fun p => if p.1 = r then (r, v) else p }

/-- Allocate a fresh map (Go `make(map[string]Module, n)` + fill). -/
def refAlloc (h : MapHeap M) (v : Registry M) : Nat × MapHeap M :=
  (h.next, ⟨h.next + 1, (h.next, v) :: h.store⟩)

/-- Function `GetModules` from modules.go: make a fresh map and copy every
registry entry into it (`modulesCopy[name] = mod` in a loop), returning
the new map. -/
def GetModules (h : MapHeap M) (reg : Nat) : Nat × MapHeap M :=
  let modulesCopy :=
    (refGet h reg).foldl (fun acc p => mapInsert acc p.1 p.2) []
  refAlloc h modulesCopy

/-- A mutation a caller performs on the map `GetModules` returned. -/
inductive MapOp (M : Type) where
  | ins : String → M → MapOp M
  | del : String → MapOp M

/-- Apply one mutation through a reference. -/
def applyOpAt (h : MapHeap M) (r : Nat) (op : MapOp M) : MapHeap M :=
  match op with
  | .ins k v => refSet h r (mapInsert (refGet h r) k v)
  | .del k => refSet h r (mapErase (refGet h r) k)

/-- Apply a sequence of mutations through a reference. -/
def applyOpsAt (h : MapHeap M) (r : Nat) (ops : List (MapOp M)) :
    MapHeap M :=
  ops.foldl (fun hh op => applyOpAt hh r op) h

/-! ### HTTP server (`handleWebhook`, `handleHealthz`, server.go) -/

/-- Result of `io.ReadAll(r.Body)`. -/
inductive BodyRead where
  | ok : List Nat → BodyRead
  | failed : BodyRead

/-- What one request produced: the response status and text, whether
`github.ParseWebHook` was reached, the `HandleEvent` goroutines whose
spawning was initiated (none when nothing was dispatched), and whether
the no-app-reference error line was logged. -/
structure WebhookResult (E ε : Type) where
  status : Nat
  respText : String
  parseReached : Bool
  initiated : List (Call E (List Nat))
  loggedNoApp : Bool

/-- Handler `handleWebhook` from server.go: read the body (400 on failure),
verify the signature (401 on failure, before any parse), parse the
event (400 on failure), then — only if the server holds an app
reference — initiate dispatch, and reply 200 without awaiting any
handler outcome. -/
def handleWebhook (webhookSecret : List Nat)
    (app : Option (List (GMod E (List Nat) ε)))
    (parseWebHook : String → List Nat → Option E)
    (eventType : String) (body : BodyRead) (sigHeader : List Char) :
    WebhookResult E ε :=
  match body with
  | .failed =>
    { status := 400, respText := "could not read body",
      parseReached := false, initiated := [], loggedNoApp := false }
  | .ok payload =>
    if !verifySignature webhookSecret payload sigHeader then
      { status := 401, respText := "invalid signature",
        parseReached := false, initiated := [], loggedNoApp := false }
    else
      match parseWebHook eventType payload with
      | none =>
        { status := 400, respText := "could not parse event",
          parseReached := true, initiated := [], loggedNoApp := false }
      | some ev =>
        match app with
        | some snapshot =>
          { status := 200, respText := "",
            parseReached := true,
            initiated := snapshot.map fun m => ⟨m.name, eventType, ev, payload⟩,
            loggedNoApp := false }
        | none =>
          { status := 200, respText := "",
            parseReached := true, initiated := [], loggedNoApp := true }

/-- Handler `handleHealthz` from server.go: status 200, body `ok`. -/
def handleHealthz : Nat × String := (200, "ok")

/-! ### Concrete sample data for witnesses and counterexamples -/

/-- A module whose handler succeeds. -/
def okM : GMod Nat Nat String := ⟨"alpha", fun _ _ _ => .ok⟩

/-- A module whose handler deliberately returns an error. -/
def errM : GMod Nat Nat String := ⟨"beta", fun _ _ _ => .err "handler failed"⟩

/-- A module whose handler panics. -/
def boomMod : GMod Nat Nat String := ⟨"boom", fun _ _ _ => .panicked⟩

/-- A well-behaved sibling of `boomMod`. -/
def quietMod : GMod Nat Nat String := ⟨"quiet", fun _ _ _ => .ok⟩

/-- A module whose `Shutdown` returns an error. -/
def lmodErr : LMod String := ⟨"m1", some (some "boom")⟩

/-- A module that does not implement `ModuleShutdowner`. -/
def lmodNoShut : LMod String := ⟨"m2", none⟩

/-- The byte string `"secret"`. -/
def sampleSecret : List Nat := [115, 101, 99, 114, 101, 116]

/-- The byte string `"{}"`. -/
def samplePayload : List Nat := [123, 125]

/-- Header `"sha256=" ++ hex(HMAC-SHA256("secret", "{}"))`: a valid signature
header for `samplePayload` under `sampleSecret`. -/
def sampleSig : List Char :=
  "sha256=77325902caca812dc259733aacd046b73817372c777b8d95b402647474516e13".data

/-- A one-map heap: the registry lives behind reference 0. -/
def hSample : MapHeap Nat := ⟨1, [(0, [("a", 7)])]⟩

/-! ### Helper lemmas -/

theorem strStartsWith_iff (s pre : List Char) :
    strStartsWith s pre = true ↔ ∃ t, s = pre ++ t := by
  unfold strStartsWith
  rw [List.isPrefixOf_iff_prefix]
  constructor
  · rintro ⟨t, ht⟩
    exact ⟨t, ht.symm⟩
  · rintro ⟨t, ht⟩
    exact ⟨t, ht.symm⟩

theorem regLookup_append (a b : Registry M) (x : String) :
    regLookup (a ++ b) x =
      match regLookup a x with
      | some v => some v
      | none => regLookup b x := by
  induction a with
  | nil => simp [regLookup]
  | cons p rest ih =>
    by_cases hp : p.1 = x
    · simp [regLookup, hp]
    · simp [regLookup, hp, ih]

theorem regLookup_append_self (r : Registry M) (name : String) (m : M)
    (h : regLookup r name = none) :
    regLookup (r ++ [(name, m)]) name = some m := by
  rw [regLookup_append, h]
  simp [regLookup]

/-! ### C5: duplicate registration -/

/-- C5: starting from a registry where `name` is unregistered,
registering a first module under `name` and then a second one leaves
the registry mapping `name` to the first module; the second
`RegisterModule` call returns with the registry state unchanged (and,
being a total function, cannot panic). -/
theorem registerModule_duplicate_rejected (r : Registry M) (name : String)
    (m1 m2 : M) (h : regLookup r name = none) :
    regLookup (RegisterModule r name m1) name = some m1 ∧
    RegisterModule (RegisterModule r name m1) name m2 =
      RegisterModule r name m1 ∧
    regLookup (RegisterModule (RegisterModule r name m1) name m2) name =
      some m1 := by
  have h1 : RegisterModule r name m1 = r ++ [(name, m1)] := by
    unfold RegisterModule
    rw [h]
    rfl
  have h2 : regLookup (RegisterModule r name m1) name = some m1 := by
    rw [h1]
    exact regLookup_append_self r name m1 h
  have hgen : ∀ r1 : Registry M, regLookup r1 name = some m1 →
      RegisterModule r1 name m2 = r1 := by
    intro r1 hr1
    unfold RegisterModule
    rw [hr1]
    rfl
  have h3 := hgen _ h2
  exact ⟨h2, h3, by rw [h3]; exact h2⟩

/-- Witness for C5 at a concrete registry. -/
theorem registerModule_duplicate_rejected_witness :
    regLookup (RegisterModule (RegisterModule [("a", 0)] "b" 1) "b" 2) "b" =
      some 1 :=
  (registerModule_duplicate_rejected [("a", 0)] "b" 1 2 (by decide)).2.2

/-! ### C7: slash-command detection -/

theorem slashLine_iff (l : List Char) :
    (strStartsWith l ['/'] && decide (l.length > 1) &&
      !strStartsWith l ['/', '/']) = true ↔
      ∃ c rest, l = '/' :: c :: rest ∧ c ≠ '/' := by
  match l with
  | [] => simp [strStartsWith, List.isPrefixOf]
  | [a] =>
    simp [strStartsWith, List.isPrefixOf]
  | a :: b :: rest =>
    have hr : (∃ c rest', (a :: b :: rest : List Char) = '/' :: c :: rest' ∧
        c ≠ '/') ↔ (a = '/' ∧ b ≠ '/') := by
      constructor
      · rintro ⟨c, rest', heq, hc⟩
        injection heq with h1 heq2
        injection heq2 with h2 h3
        subst h2
        exact ⟨h1, hc⟩
      · rintro ⟨rfl, hb⟩
        exact ⟨b, rest, rfl, hb⟩
    have hs1 : strStartsWith (a :: b :: rest) ['/'] = ('/' == a) := by
      simp [strStartsWith, List.isPrefixOf]
    have hs2 : strStartsWith (a :: b :: rest) ['/', '/'] =
        (('/' == a) && ('/' == b)) := by
      simp [strStartsWith, List.isPrefixOf]
    rw [hr, hs1, hs2]
    by_cases ha : a = '/'
    · subst ha
      by_cases hb : b = '/'
      · subst hb
        simp
      · have hb' : ('/' == b) = false := by
          rw [beq_eq_false_iff_ne]
          exact fun h => hb h.symm
        simp [hb', hb]
    · have ha' : ('/' == a) = false := by
        rw [beq_eq_false_iff_ne]
        exact fun h => ha h.symm
      simp [ha', ha]

/-- C7: `IsSlashCommand` is true exactly when some line of the body
(split on newline, then trimmed of surrounding whitespace) starts with
`/` followed by at least one more character and does not start with
`//`; in particular it is true for `"/oncall ack"`, false for
`"// not a command"`, false for `"plain text"`, and true for a
multi-line body whose second line is `"/escalate"`. -/
theorem isSlashCommand_claim (body : List Char) :
    (IsSlashCommand body = true ↔
      ∃ line ∈ splitLines body, ∃ c rest,
        trimSpace line = '/' :: c :: rest ∧ c ≠ '/') ∧
    IsSlashCommand "/oncall ack".data = true ∧
    IsSlashCommand "// not a command".data = false ∧
    IsSlashCommand "plain text".data = false ∧
    IsSlashCommand "hello\n/escalate".data = true := by
  refine ⟨?_, by decide, by decide, by decide, by decide⟩
  unfold IsSlashCommand
  rw [List.any_eq_true]
  constructor
  · rintro ⟨line, hline, hp⟩
    exact ⟨line, hline, (slashLine_iff (trimSpace line)).mp hp⟩
  · rintro ⟨line, hline, hp⟩
    exact ⟨line, hline, (slashLine_iff (trimSpace line)).mpr hp⟩

/-! ### C1: webhook signature verification -/

theorem natLor_eq_zero (a b : Nat) : a ||| b = 0 ↔ a = 0 ∧ b = 0 := by
  constructor
  · intro h
    refine ⟨Nat.zero_of_testBit_eq_false fun i => ?_,
      Nat.zero_of_testBit_eq_false fun i => ?_⟩
    · have := congrArg (fun n => n.testBit i) h
      simp [Nat.testBit_lor] at this
      exact this.1
    · have := congrArg (fun n => n.testBit i) h
      simp [Nat.testBit_lor] at this
      exact this.2
  · rintro ⟨rfl, rfl⟩
    rfl

theorem foldl_lor_eq_zero (l : List Nat) (a : Nat) :
    l.foldl Nat.lor a = 0 ↔ a = 0 ∧ ∀ v ∈ l, v = 0 := by
  induction l generalizing a with
  | nil => simp
  | cons v rest ih =>
    rw [List.foldl_cons, ih]
    rw [show Nat.lor a v = a ||| v from rfl, natLor_eq_zero]
    constructor
    · rintro ⟨⟨ha, hv⟩, hrest⟩
      exact ⟨ha, fun x hx => by
        rcases List.mem_cons.mp hx with rfl | hx'
        · exact hv
        · exact hrest x hx'⟩
    · rintro ⟨ha, hall⟩
      exact ⟨⟨ha, hall v (List.mem_cons_self ..)⟩,
        fun x hx => hall x (List.mem_cons_of_mem _ hx)⟩

theorem zipWith_xor_zero_iff (x y : List Nat) (hlen : x.length = y.length) :
    (∀ v ∈ List.zipWith Nat.xor x y, v = 0) ↔ x = y := by
  induction x generalizing y with
  | nil =>
    cases y with
    | nil => simp
    | cons b bs => simp at hlen
  | cons a as ih =>
    cases y with
    | nil => simp at hlen
    | cons b bs =>
      rw [List.zipWith_cons_cons]
      simp only [List.length_cons, Nat.add_right_cancel_iff] at hlen
      constructor
      · intro h
        have hab : a = b :=
          Nat.xor_eq_zero.mp (h _ (List.mem_cons_self ..))
        have htail : as = bs := (ih bs hlen).mp fun v hv =>
          h v (List.mem_cons_of_mem _ hv)
        rw [hab, htail]
      · intro h
        injection h with h1 h2
        intro v hv
        rcases List.mem_cons.mp hv with rfl | hv'
        · exact Nat.xor_eq_zero.mpr h1
        · exact (ih bs hlen).mpr h2 v hv'

theorem constantTimeCompare_eq_one_iff (x y : List Nat) :
    constantTimeCompare x y = 1 ↔ x = y := by
  unfold constantTimeCompare
  by_cases hlen : x.length = y.length
  · rw [if_neg (by simpa using hlen)]
    by_cases hz : (List.zipWith Nat.xor x y).foldl Nat.lor 0 = 0
    · rw [if_pos hz]
      have := (foldl_lor_eq_zero (List.zipWith Nat.xor x y) 0).mp hz
      simp only [true_iff]
      exact (zipWith_xor_zero_iff x y hlen).mp this.2
    · rw [if_neg hz]
      constructor
      · intro hh
        exact absurd hh (by decide)
      · intro hh
        subst hh
        exact absurd ((foldl_lor_eq_zero _ 0).mpr
          ⟨rfl, fun v hv => by
            obtain ⟨i, hi, rfl⟩ := List.mem_iff_getElem.mp hv
            rw [List.getElem_zipWith]
            exact Nat.xor_self _⟩) hz
  · rw [if_pos (by simpa using hlen)]
    constructor
    · intro hh
      exact absurd hh (by decide)
    · intro hh
      subst hh
      exact absurd rfl hlen

theorem verifySignature_true_iff (secret payload : List Nat)
    (sig : List Char) :
    verifySignature secret payload sig = true ↔
      ∃ hx, sig = sha256Tag ++ hx ∧
        hexDecode hx = some (hmacSha256 secret payload) := by
  by_cases hp : strStartsWith sig sha256Tag
  · obtain ⟨t, rfl⟩ := (strStartsWith_iff sig sha256Tag).mp hp
    have hdrop : trimPfx (sha256Tag ++ t) sha256Tag = t := by
      unfold trimPfx
      rw [if_pos hp]
      exact List.drop_left sha256Tag t
    cases hd : hexDecode t with
    | none =>
      have hv : verifySignature secret payload (sha256Tag ++ t) = false := by
        simp [verifySignature, hp, hdrop, hd]
      rw [hv]
      simp only [Bool.false_eq_true, false_iff]
      rintro ⟨hx, hsig, hdec⟩
      have : hx = t := List.append_cancel_left hsig.symm
      subst this
      rw [hd] at hdec
      cases hdec
    | some mac =>
      have hv : verifySignature secret payload (sha256Tag ++ t) =
          decide (constantTimeCompare mac
            (hmacSha256 secret payload) = 1) := by
        simp only [verifySignature, hp, hdrop, hd, Bool.not_true]
        rfl
      rw [hv, decide_eq_true_eq, constantTimeCompare_eq_one_iff]
      constructor
      · intro hh
        exact ⟨t, rfl, by rw [hd, hh]⟩
      · rintro ⟨hx, hsig, hdec⟩
        have : hx = t := List.append_cancel_left hsig.symm
        subst this
        rw [hd] at hdec
        exact Option.some.inj hdec
  · have hv : verifySignature secret payload sig = false := by
      unfold verifySignature
      rw [Bool.not_eq_true] at hp
      rw [hp]
      rfl
    rw [hv]
    simp only [Bool.false_eq_true, false_iff]
    rintro ⟨hx, hsig, _⟩
    exact hp ((strStartsWith_iff sig sha256Tag).mpr ⟨hx, hsig⟩)

/-- C1: `verifySignature` accepts exactly the signatures of the form
`sha256=` followed by a hex encoding of the HMAC-SHA256 digest of
exactly the given payload under exactly the configured secret; a
signature without the `sha256=` scheme tag is rejected, a non-decodable
hex suffix is rejected, and any payload/secret mutation that changes
the digest turns an accepted signature into a rejected one. -/
theorem verifySignature_claim (secret payload : List Nat)
    (sig : List Char) :
    (verifySignature secret payload sig = true ↔
      ∃ hx, sig = sha256Tag ++ hx ∧
        hexDecode hx = some (hmacSha256 secret payload)) ∧
    (strStartsWith sig sha256Tag = false →
      verifySignature secret payload sig = false) ∧
    (∀ hx, sig = sha256Tag ++ hx → hexDecode hx = none →
      verifySignature secret payload sig = false) ∧
    (∀ secret' payload',
      verifySignature secret payload sig = true →
      hmacSha256 secret' payload' ≠ hmacSha256 secret payload →
      verifySignature secret' payload' sig = false) := by
  refine ⟨verifySignature_true_iff secret payload sig, ?_, ?_, ?_⟩
  · intro hp
    rw [← Bool.not_eq_true]
    intro hv
    obtain ⟨hx, hsig, _⟩ := (verifySignature_true_iff _ _ _).mp hv
    rw [(strStartsWith_iff sig sha256Tag).mpr ⟨hx, hsig⟩] at hp
    cases hp
  · intro hx hsig hdec
    rw [← Bool.not_eq_true]
    intro hv
    obtain ⟨hx', hsig', hdec'⟩ := (verifySignature_true_iff _ _ _).mp hv
    have : hx' = hx := List.append_cancel_left (hsig ▸ hsig').symm
    subst this
    rw [hdec] at hdec'
    cases hdec'
  · intro secret' payload' hv hne
    rw [← Bool.not_eq_true]
    intro hv'
    obtain ⟨hx, hsig, hdec⟩ := (verifySignature_true_iff _ _ _).mp hv
    obtain ⟨hx', hsig', hdec'⟩ := (verifySignature_true_iff _ _ _).mp hv'
    have : hx' = hx := List.append_cancel_left (hsig ▸ hsig').symm
    subst this
    rw [hdec] at hdec'
    exact hne (Option.some.inj hdec').symm

/-- Witness for C1: a header without the `sha256=` tag is rejected. -/
theorem verifySignature_claim_witness :
    verifySignature sampleSecret samplePayload ['o', 'k'] = false :=
  (verifySignature_claim sampleSecret samplePayload ['o', 'k']).2.1
    (by decide)

/-! ### C2/C3: event dispatch -/

theorem dispatchRun_no_panic (order : List (GMod E R ε)) (et : String)
    (ev : E) (raw : R)
    (h : ∀ m ∈ order, m.handleEvent et ev raw ≠ .panicked) :
    (dispatchRun order et ev raw).calls =
      order.map (fun m => ⟨m.name, et, ev, raw⟩) ∧
    (dispatchRun order et ev raw).crashed = false ∧
    (dispatchRun order et ev raw).logged = order.filterMap (fun m =>
      match m.handleEvent et ev raw with
      | .err e => some ⟨m.name, et, e⟩
      | _ => none) := by
  induction order with
  | nil => exact ⟨rfl, rfl, rfl⟩
  | cons m rest ih =>
    have hm := h m (List.mem_cons_self ..)
    have hrest : ∀ m' ∈ rest, m'.handleEvent et ev raw ≠ .panicked :=
      fun m' hm' => h m' (List.mem_cons_of_mem _ hm')
    obtain ⟨ih1, ih2, ih3⟩ := ih hrest
    cases hres : m.handleEvent et ev raw with
    | ok => simp [dispatchRun, goroutineBody, hres, ih1, ih2, ih3]
    | err e => simp [dispatchRun, goroutineBody, hres, ih1, ih2, ih3]
    | panicked => exact absurd hres hm

/-- C2: for any registry snapshot whose names are distinct (a Go map
guarantees this) and whose handlers return (do not panic) on the given
event, every complete execution order of the goroutines `DispatchEvent`
spawns invokes each module's `HandleEvent` exactly once with the
identical `(eventType, event, raw)` triple; a handler's returned error
only adds a log line — the other handlers still run, the process does
not crash, and `DispatchEvent` (whose Go signature returns nothing)
hands no error back to its caller. -/
theorem dispatchEvent_claim (snapshot order : List (GMod E R ε))
    (et : String) (ev : E) (raw : R)
    (hperm : order.Perm snapshot)
    (hnames : (snapshot.map GMod.name).Nodup)
    (hnp : ∀ m ∈ snapshot, m.handleEvent et ev raw ≠ .panicked) :
    (dispatchRun order et ev raw).calls.Perm
      (snapshot.map fun m => ⟨m.name, et, ev, raw⟩) ∧
    (∀ m ∈ snapshot,
      (dispatchRun order et ev raw).calls.countP
        (fun c => c.module == m.name) = 1) ∧
    (∀ c ∈ (dispatchRun order et ev raw).calls,
      c.eventType = et ∧ c.event = ev ∧ c.raw = raw) ∧
    (dispatchRun order et ev raw).crashed = false ∧
    (dispatchRun order et ev raw).logged = order.filterMap (fun m =>
      match m.handleEvent et ev raw with
      | .err e => some ⟨m.name, et, e⟩
      | _ => none) := by
  have hnp' : ∀ m ∈ order, m.handleEvent et ev raw ≠ .panicked :=
    fun m hm => hnp m (hperm.subset hm)
  obtain ⟨h1, h2, h3⟩ := dispatchRun_no_panic order et ev raw hnp'
  refine ⟨?_, ?_, ?_, h2, h3⟩
  · rw [h1]
    exact hperm.map _
  · intro m hm
    calc (dispatchRun order et ev raw).calls.countP
          (fun c => c.module == m.name)
        = List.countP (fun m' => m'.name == m.name) order := by
          rw [h1, List.countP_map]
          rfl
      _ = List.countP (fun m' => m'.name == m.name) snapshot :=
          hperm.countP_eq _
      _ = List.count m.name (snapshot.map GMod.name) := by
          rw [List.count, List.countP_map]
          rfl
      _ = 1 := List.count_eq_one_of_mem hnames (List.mem_map_of_mem _ hm)
  · rw [h1]
    rintro c hc
    obtain ⟨m', _, rfl⟩ := List.mem_map.mp hc
    exact ⟨rfl, rfl, rfl⟩

/-- Witness for C2: a deliberately erring module (`errM`) next to a
succeeding one (`okM`), run in the reversed completion order. -/
theorem dispatchEvent_claim_witness :
    (dispatchRun [errM, okM] "issue_comment" 0 0).crashed = false ∧
    (dispatchRun [errM, okM] "issue_comment" 0 0).calls.countP
      (fun c => c.module == "alpha") = 1 := by
  have h := dispatchEvent_claim [okM, errM] [errM, okM] "issue_comment" 0 0
    (List.Perm.swap _ _ _) (by decide) (by decide)
  exact ⟨h.2.2.2.1, h.2.1 okM (List.mem_cons_self ..)⟩

theorem dispatchRun_crashed_of_panic (order : List (GMod E R ε))
    (et : String) (ev : E) (raw : R)
    (h : ∃ m ∈ order, m.handleEvent et ev raw = .panicked) :
    (dispatchRun order et ev raw).crashed = true := by
  induction order with
  | nil =>
    obtain ⟨m, hm, _⟩ := h
    cases hm
  | cons m rest ih =>
    cases hres : m.handleEvent et ev raw with
    | panicked => simp [dispatchRun, goroutineBody, hres]
    | ok =>
      obtain ⟨m', hm', hp⟩ := h
      rcases List.mem_cons.mp hm' with rfl | hm''
      · rw [hres] at hp
        cases hp
      · simp only [dispatchRun, goroutineBody, hres]
        exact ih ⟨m', hm'', hp⟩
    | err e =>
      obtain ⟨m', hm', hp⟩ := h
      rcases List.mem_cons.mp hm' with rfl | hm''
      · rw [hres] at hp
        cases hp
      · simp only [dispatchRun, goroutineBody, hres]
        exact ih ⟨m', hm'', hp⟩

/-- C3 counterexample: a module whose handler panics.  The goroutine
`DispatchEvent` spawns has no `recover`, so in the execution where the
panicking goroutine runs first the process crashes and the sibling
module `quiet` is never invoked — the panic was not converted into a
logged error. -/
theorem dispatch_panic_not_caught_counterexample :
    (dispatchRun [boomMod, quietMod] "issues" 0 0).crashed = true ∧
    (dispatchRun [boomMod, quietMod] "issues" 0 0).calls =
      [⟨"boom", "issues", 0, 0⟩] ∧
    (dispatchRun [boomMod, quietMod] "issues" 0 0).logged = [] := by
  decide

/-- C3 (amended): a panic inside `HandleEvent` is not caught at the
per-module goroutine boundary — whenever any module of the snapshot
panics on the event, every execution order ends with the process
crashed, and in the order where the panicking module completes first no
sibling module is invoked at all.  (Returned errors, by contrast, are
logged and isolated.) -/
theorem dispatch_panic_crashes_process (snapshot order : List (GMod E R ε))
    (et : String) (ev : E) (raw : R)
    (hperm : order.Perm snapshot)
    (hpanic : ∃ m ∈ snapshot, m.handleEvent et ev raw = .panicked) :
    (dispatchRun order et ev raw).crashed = true ∧
    ∀ (m : GMod E R ε) (rest : List (GMod E R ε)),
      m.handleEvent et ev raw = .panicked →
      (dispatchRun (m :: rest) et ev raw).calls = [⟨m.name, et, ev, raw⟩] := by
  constructor
  · obtain ⟨m, hm, hp⟩ := hpanic
    exact dispatchRun_crashed_of_panic order et ev raw
      ⟨m, hperm.mem_iff.mpr hm, hp⟩
  · intro m rest hp
    simp [dispatchRun, goroutineBody, hp]

/-- Witness for the amended C3. -/
theorem dispatch_panic_crashes_process_witness :
    (dispatchRun [boomMod] "issues" 0 0).crashed = true :=
  (dispatch_panic_crashes_process [boomMod] [boomMod] "issues" 0 0
    (List.Perm.refl _) ⟨boomMod, List.mem_cons_self .., by decide⟩).1

/-! ### C4: application shutdown -/

/-- C4 counterexample: with a single registered module whose `Shutdown`
errs, `shutdownModules` does hand `App.Shutdown` the error, but
`App.Shutdown` only logs it and returns nil to its own caller. -/
theorem appShutdown_swallows_module_error_counterexample :
    (shutdownModules [lmodErr]).firstErr = some "boom" ∧
    (appShutdown none [lmodErr] none true none).returned = none := by
  decide

/-- C4 (amended): `App.Shutdown` waits for every module shutdown
(`wg.Wait`), runs every remaining teardown step (telemetry flush,
database close), logs the first module-shutdown error when one occurs —
but always returns nil to its caller; the first error reaches only the
internal `shutdownModules` return value, which `App.Shutdown`
discards. -/
theorem appShutdown_claim (serverRes : Option ε)
    (snapshot order : List (LMod ε)) (telemetryRes : Option ε)
    (dbPresent : Bool) (dbRes : Option ε)
    (hperm : order.Perm snapshot) :
    (appShutdown serverRes order telemetryRes dbPresent dbRes).returned =
      none ∧
    (appShutdown serverRes order telemetryRes dbPresent
        dbRes).moduleTrace.invoked.Perm
      (snapshot.filterMap fun m => m.shutdownFn.map fun _ => m.name) ∧
    (appShutdown serverRes order telemetryRes dbPresent
        dbRes).serverStopped = true ∧
    (appShutdown serverRes order telemetryRes dbPresent
        dbRes).telemetryFlushed = true ∧
    (appShutdown serverRes order telemetryRes dbPresent dbRes).dbClosed =
      dbPresent ∧
    ((appShutdown serverRes order telemetryRes dbPresent
        dbRes).moduleTrace.firstErr.isSome →
      "Error during module shutdown" ∈
        (appShutdown serverRes order telemetryRes dbPresent
          dbRes).stepErrsLogged) := by
  refine ⟨rfl, ?_, rfl, rfl, rfl, ?_⟩
  · have : (appShutdown serverRes order telemetryRes dbPresent
        dbRes).moduleTrace.invoked =
        order.filterMap fun m => m.shutdownFn.map fun _ => m.name := by
      simp only [appShutdown, shutdownModules, List.map_filterMap,
        Option.map_map]
      rfl
    rw [this]
    exact hperm.filterMap _
  · intro hsome
    have hs : (shutdownModules order).firstErr.isSome = true := by
      simpa [appShutdown] using hsome
    simp [appShutdown, hs]

/-- Witness for the amended C4. -/
theorem appShutdown_claim_witness :
    (appShutdown none [lmodErr, lmodNoShut] none true none).returned =
      none ∧
    "Error during module shutdown" ∈
      (appShutdown none [lmodErr, lmodNoShut] none true
        none).stepErrsLogged := by
  have h := appShutdown_claim none [lmodErr, lmodNoShut]
    [lmodErr, lmodNoShut] none true none (List.Perm.refl _)
  exact ⟨h.1, h.2.2.2.2.2 (by decide)⟩

/-! ### C6/C10: webhook HTTP handler -/

/-- C6: `handleWebhook` replies 400 when the body cannot be read
(nothing parsed, nothing dispatched); 401 when the
`X-Hub-Signature-256` header fails verification, without ever reaching
the event parser or dispatch; 400 when the verified payload fails to
parse, without dispatching; and 200 after initiating dispatch on
success — the status is the same for every registry snapshot, erring
handlers included, because the response never waits on a handler
outcome.  `handleHealthz` always replies 200 with body `ok`. -/
theorem handleWebhook_claim (secret : List Nat)
    (app : Option (List (GMod E (List Nat) ε)))
    (parse : String → List Nat → Option E) (et : String)
    (sig : List Char) :
    ((handleWebhook secret app parse et .failed sig).status = 400 ∧
      (handleWebhook secret app parse et .failed sig).parseReached =
        false ∧
      (handleWebhook secret app parse et .failed sig).initiated = []) ∧
    (∀ payload, verifySignature secret payload sig = false →
      (handleWebhook secret app parse et (.ok payload) sig).status =
        401 ∧
      (handleWebhook secret app parse et
        (.ok payload) sig).parseReached = false ∧
      (handleWebhook secret app parse et (.ok payload) sig).initiated =
        []) ∧
    (∀ payload, verifySignature secret payload sig = true →
      parse et payload = none →
      (handleWebhook secret app parse et (.ok payload) sig).status =
        400 ∧
      (handleWebhook secret app parse et (.ok payload) sig).initiated =
        []) ∧
    (∀ payload ev snapshot,
      verifySignature secret payload sig = true →
      parse et payload = some ev → app = some snapshot →
      (handleWebhook secret app parse et (.ok payload) sig).status =
        200 ∧
      (handleWebhook secret app parse et (.ok payload) sig).initiated =
        snapshot.map fun m => ⟨m.name, et, ev, payload⟩) ∧
    handleHealthz = (200, "ok") := by
  refine ⟨⟨rfl, rfl, rfl⟩, ?_, ?_, ?_, rfl⟩
  · intro payload hv
    refine ⟨?_, ?_, ?_⟩ <;> simp [handleWebhook, hv]
  · intro payload hv hp
    refine ⟨?_, ?_⟩ <;> simp [handleWebhook, hv, hp]
  · intro payload ev snapshot hv hp happ
    subst happ
    refine ⟨?_, ?_⟩ <;> simp [handleWebhook, hv, hp]

/-- Witness for C6: a header without the scheme tag gets 401. -/
theorem handleWebhook_claim_witness :
    (handleWebhook (E := Nat) (ε := Nat) sampleSecret none
      (fun _ _ => none) "issues" (.ok samplePayload) ['x']).status =
      401 := by
  have h := handleWebhook_claim sampleSecret
    (none : Option (List (GMod Nat (List Nat) Nat)))
    (fun _ _ => none) "issues" ['x']
  exact (h.2.1 samplePayload (by decide)).1

/-- C10: a request whose body reads, whose signature verifies and whose
payload parses still gets a 200 reply when the server holds no app
reference; no dispatch is initiated — the event is dropped with only an
error log line, so a 200 does not imply delivery to any module. -/
theorem handleWebhook_noApp_claim (secret payload : List Nat)
    (sig : List Char) (parse : String → List Nat → Option E)
    (et : String) (ev : E)
    (hv : verifySignature secret payload sig = true)
    (hp : parse et payload = some ev) :
    (handleWebhook (ε := ε) secret none parse et
      (.ok payload) sig).status = 200 ∧
    (handleWebhook (ε := ε) secret none parse et
      (.ok payload) sig).initiated = [] ∧
    (handleWebhook (ε := ε) secret none parse et
      (.ok payload) sig).loggedNoApp = true := by
  refine ⟨?_, ?_, ?_⟩ <;> simp [handleWebhook, hv, hp]

set_option maxRecDepth 1000000 in
/-- Witness for C10: the genuine HMAC-SHA256 signature of `"{}"` under
secret `"secret"` verifies, and with no app reference the result is a
200 with nothing dispatched. -/
theorem handleWebhook_noApp_claim_witness :
    (handleWebhook (E := Nat) (ε := Nat) sampleSecret none
      (fun _ _ => some 7) "issues" (.ok samplePayload)
      sampleSig).status = 200 ∧
    (handleWebhook (E := Nat) (ε := Nat) sampleSecret none
      (fun _ _ => some 7) "issues" (.ok samplePayload)
      sampleSig).initiated = [] ∧
    (handleWebhook (E := Nat) (ε := Nat) sampleSecret none
      (fun _ _ => some 7) "issues" (.ok samplePayload)
      sampleSig).loggedNoApp = true :=
  handleWebhook_noApp_claim sampleSecret samplePayload sampleSig
    (fun _ _ => some 7) "issues" 7 (by decide) rfl

/-! ### C8: `GetModules` returns an independent copy -/

theorem mapInsert_absent (acc : Registry M) (k : String) (v : M)
    (h : regLookup acc k = none) :
    mapInsert acc k v = acc ++ [(k, v)] := by
  unfold mapInsert
  rw [h]
  rfl

theorem copyFold_eq (l : List (String × M)) (acc : Registry M)
    (hnd : (l.map Prod.fst).Nodup)
    (hdisj : ∀ p ∈ l, regLookup acc p.1 = none) :
    l.foldl (fun a p => mapInsert a p.1 p.2) acc = acc ++ l := by
  induction l generalizing acc with
  | nil => simp
  | cons p rest ih =>
    have hpacc : regLookup acc p.1 = none := hdisj p (List.mem_cons_self ..)
    have h1 : mapInsert acc p.1 p.2 = acc ++ [p] := by
      rw [mapInsert_absent acc p.1 p.2 hpacc]
    have hnotin : p.1 ∉ rest.map Prod.fst := (List.nodup_cons.mp (by
      simpa using hnd)).1
    have hnd' : (rest.map Prod.fst).Nodup := (List.nodup_cons.mp (by
      simpa using hnd)).2
    have hdisj' : ∀ q ∈ rest, regLookup (acc ++ [p]) q.1 = none := by
      intro q hq
      rw [regLookup_append, hdisj q (List.mem_cons_of_mem _ hq)]
      have hne : ¬ p.1 = q.1 := fun hh =>
        hnotin (hh ▸ List.mem_map_of_mem Prod.fst hq)
      simp [regLookup, hne]
    rw [List.foldl_cons, h1, ih (acc ++ [p]) hnd' hdisj',
      List.append_assoc]
    rfl

theorem refGet_alloc_self (h : MapHeap M) (v : Registry M) :
    refGet (refAlloc h v).2 (refAlloc h v).1 = v := by
  simp [refGet, refAlloc, List.find?]

theorem refGet_alloc_other (h : MapHeap M) (v : Registry M) (s : Nat)
    (hs : s ≠ h.next) :
    refGet (refAlloc h v).2 s = refGet h s := by
  have hb : (h.next == s) = false := beq_eq_false_iff_ne.mpr fun hh =>
    hs hh.symm
  simp [refGet, refAlloc, List.find?, hb]

theorem find?_set_other (l : List (Nat × Registry M)) (r s : Nat)
    (v : Registry M) (hrs : r ≠ s) :
    (l.map fun p => if p.1 = r then (r, v) else p).find?
      (fun p => p.1 == s) = l.find? (fun p => p.1 == s) := by
  induction l with
  | nil => rfl
  | cons p rest ih =>
    by_cases hp : p.1 = r
    · have hb : (r == s) = false := beq_eq_false_iff_ne.mpr hrs
      have hb' : (p.1 == s) = false := by
        rw [hp]
        exact hb
      simp [List.find?, hp, hb, hb', ih]
    · by_cases hps : p.1 = s
      · have hsr : ¬ s = r := fun hh => hrs hh.symm
        simp [List.find?, hp, hps, hsr]
      · have hb : (p.1 == s) = false := beq_eq_false_iff_ne.mpr hps
        simp [List.find?, hp, hb, ih]

theorem refGet_set_other (h : MapHeap M) (r : Nat) (v : Registry M)
    (s : Nat) (hrs : r ≠ s) :
    refGet (refSet h r v) s = refGet h s := by
  unfold refGet refSet
  rw [find?_set_other h.store r s v hrs]

/-- C8: `GetModules` hands back a map whose contents equal the
registry's name→module entries but which lives behind a fresh
reference: the call leaves every existing map (the registry included)
untouched, and any later sequence of insertions or deletions performed
on the returned map leaves the registry's own mapping unchanged. -/
theorem getModules_claim (h : MapHeap M) (reg : Nat)
    (hreg : reg < h.next)
    (hnd : ((refGet h reg).map Prod.fst).Nodup) :
    refGet (GetModules h reg).2 (GetModules h reg).1 = refGet h reg ∧
    (∀ s, s ≠ (GetModules h reg).1 →
      refGet (GetModules h reg).2 s = refGet h s) ∧
    (∀ ops : List (MapOp M),
      refGet (applyOpsAt (GetModules h reg).2 (GetModules h reg).1 ops)
        reg = refGet h reg) := by
  have hcopy : (refGet h reg).foldl (fun a p => mapInsert a p.1 p.2) [] =
      refGet h reg := by
    rw [copyFold_eq (refGet h reg) [] hnd (fun p _ => rfl)]
    rfl
  have h1 : refGet (GetModules h reg).2 (GetModules h reg).1 =
      refGet h reg := by
    show refGet (refAlloc h _).2 (refAlloc h _).1 = _
    rw [refGet_alloc_self, hcopy]
  have h2 : ∀ s, s ≠ (GetModules h reg).1 →
      refGet (GetModules h reg).2 s = refGet h s := by
    intro s hs
    exact refGet_alloc_other h _ s hs
  refine ⟨h1, h2, ?_⟩
  have hne : (GetModules h reg).1 ≠ reg := Nat.ne_of_gt hreg
  have hstep : ∀ (hp : MapHeap M) (op : MapOp M),
      refGet (applyOpAt hp (GetModules h reg).1 op) reg = refGet hp reg := by
    intro hp op
    cases op with
    | ins k v => exact refGet_set_other hp _ _ reg hne
    | del k => exact refGet_set_other hp _ _ reg hne
  have hbase : refGet (GetModules h reg).2 reg = refGet h reg :=
    h2 reg (Ne.symm hne)
  have hops : ∀ (ops : List (MapOp M)) (hp : MapHeap M),
      refGet hp reg = refGet h reg →
      refGet (applyOpsAt hp (GetModules h reg).1 ops) reg =
        refGet h reg := by
    intro ops
    induction ops with
    | nil => intro hp hh; exact hh
    | cons op rest ih =>
      intro hp hh
      exact ih _ ((hstep hp op).trans hh)
  exact fun ops => hops ops _ hbase

/-- Witness for C8: a concrete one-entry registry, with an insertion
and a deletion performed on the copy. -/
theorem getModules_claim_witness :
    refGet (GetModules hSample 0).2 (GetModules hSample 0).1 =
      [("a", 7)] ∧
    refGet (applyOpsAt (GetModules hSample 0).2 (GetModules hSample 0).1
      [.ins "x" 5, .del "a"]) 0 = [("a", 7)] := by
  have hc := getModules_claim hSample 0 (by decide) (by decide)
  exact ⟨hc.1.trans (by decide), (hc.2.2 [.ins "x" 5, .del "a"]).trans
    (by decide)⟩

/-! ### C9: config validation and defaults -/

/-- C9: `ValidateConfig` returns an error exactly when the webhook
secret is empty; `ApplyConfigDefaults` fills an empty port with
`"8080"`, an empty storage path with `"data.db"`, and an absent log
block with level `info` / format `json`, and leaves every already-set
field unchanged. -/
theorem config_defaults_claim (c : AppConfig) :
    ((ValidateConfig c).isSome ↔ c.webHookSecret = "") ∧
    (c.port = "" → (ApplyConfigDefaults c).port = "8080") ∧
    (c.port ≠ "" → (ApplyConfigDefaults c).port = c.port) ∧
    (c.dbPath = "" → (ApplyConfigDefaults c).dbPath = "data.db") ∧
    (c.dbPath ≠ "" → (ApplyConfigDefaults c).dbPath = c.dbPath) ∧
    (c.log = none →
      (ApplyConfigDefaults c).log =
        some [("level", "info"), ("format", "json")]) ∧
    (∀ lv, c.log = some lv → (ApplyConfigDefaults c).log = some lv) ∧
    (ApplyConfigDefaults c).webHookSecret = c.webHookSecret ∧
    (ApplyConfigDefaults c).gitHubToken = c.gitHubToken ∧
    (ApplyConfigDefaults c).modules = c.modules := by
  unfold ValidateConfig ApplyConfigDefaults
  by_cases hport : c.port = "" <;>
    by_cases hdb : c.dbPath = "" <;>
    by_cases hlog : c.log = none <;>
    by_cases hsec : c.webHookSecret = "" <;>
    simp_all

/-- Witness for C9 at a concrete config needing every default. -/
theorem config_defaults_claim_witness :
    (ApplyConfigDefaults ⟨"s", "", "", "", none, none⟩).port = "8080" ∧
    (ApplyConfigDefaults ⟨"s", "", "", "", none, none⟩).dbPath = "data.db" ∧
    (ApplyConfigDefaults ⟨"s", "", "", "", none, none⟩).log =
      some [("level", "info"), ("format", "json")] ∧
    ValidateConfig ⟨"s", "", "", "", none, none⟩ = none := by
  have h := config_defaults_claim ⟨"s", "", "", "", none, none⟩
  exact ⟨h.2.1 rfl, h.2.2.2.1 rfl, h.2.2.2.2.2.1 rfl, by decide⟩

end Otto
